import Mathlib

/-!
Shallow embedding of the wine-quality dashboard pipeline (src/app.py).

The program loads two semicolon-separated CSV files (red and white wine
samples), tags each row with a provenance label, concatenates them, filters
by the selected wine types and an inclusive quality range, and computes
descriptive aggregates (mean, median, a grouped mean per quality score, and
a Pearson correlation matrix over the numeric columns).

Modelling choices:
  - a CSV data row is a Row of 11 rational features plus an integer quality;
  - a Sample is a Row tagged with its provenance label (the type column
    added at load time);
  - a Dataset is a List Sample in file order;
  - pandas NaN results (mean or median of an empty series, correlation of a
    zero-variance column) are Option.none;
  - correlation values live in Option Real since Pearson correlation
    divides by a square root; all guards stay decidable over the rationals.
-/

namespace WineApp

/-- Provenance label added at load time: the type column. -/
inductive Wtype where
  | Red : Wtype
  | White : Wtype
deriving DecidableEq, Repr

/-- One data row of a source CSV file: the 11 physicochemical feature
columns and the integer quality score, before tagging. -/
structure Row where
  fixed_acidity : ℚ
  volatile_acidity : ℚ
  citric_acid : ℚ
  residual_sugar : ℚ
  chlorides : ℚ
  free_sulfur_dioxide : ℚ
  total_sulfur_dioxide : ℚ
  density : ℚ
  pH : ℚ
  sulphates : ℚ
  alcohol : ℚ
  quality : ℤ
deriving DecidableEq, Repr

/-- One wine measurement as held in the merged dataframe: a data row plus
the provenance label written into the type column. -/
structure Sample where
  row : Row
  wtype : Wtype
deriving DecidableEq, Repr

/-- Quality score of a tagged sample. -/
def Sample.quality (s : Sample) : ℤ := s.row.quality

/-- The numeric columns of the merged dataframe: the 11 features plus
quality. The non-numeric type column is not among them. -/
inductive NumCol where
  | fixedAcidity | volatileAcidity | citricAcid | residualSugar
  | chlorides | freeSulfurDioxide | totalSulfurDioxide | density
  | pH | sulphates | alcohol | quality
deriving DecidableEq, Repr

/-- Value of a numeric column in a data row (quality cast to rational). -/
def colVal (c : NumCol) (r : Row) : ℚ :=
  match c with
  | .fixedAcidity => r.fixed_acidity
  | .volatileAcidity => r.volatile_acidity
  | .citricAcid => r.citric_acid
  | .residualSugar => r.residual_sugar
  | .chlorides => r.chlorides
  | .freeSulfurDioxide => r.free_sulfur_dioxide
  | .totalSulfurDioxide => r.total_sulfur_dioxide
  | .density => r.density
  | .pH => r.pH
  | .sulphates => r.sulphates
  | .alcohol => r.alcohol
  | .quality => (r.quality : ℚ)

/-- Value of a numeric column in a tagged sample. -/
def Sample.col (s : Sample) (c : NumCol) : ℚ := colVal c s.row

/-- Error raised when a source file is absent (st.error plus st.stop in
load_data of app.py: the message is shown and the script halts). -/
inductive LoadError where
  | missingFile : LoadError
deriving DecidableEq, Repr

/-- Tagging a row with its provenance label, as in red[type] = Red. -/
def tag (w : Wtype) (r : Row) : Sample := ⟨r, w⟩

/-- Embedding of load_data (app.py lines 17-38). The two Bool arguments
model red_path.exists() and white_path.exists(); the two lists are the
parsed rows of the red and the white file. If either file is absent the
function stops with missingFile; otherwise it tags the red rows Red, the
white rows White, and concatenates red before white (pd.concat with
ignore_index). -/
def load_data (redExists whiteExists : Bool) (red white : List Row) :
    Except LoadError (List Sample) :=
  if !redExists || !whiteExists then
    .error .missingFile
  else
    .ok (red.map (tag .Red) ++ white.map (tag .White))

/-- Embedding of the filter (app.py lines 50-53):
df[df.type.isin(wine_selection) and df.quality.between(lo, hi)].
A sample is kept iff its label is in the selection and its quality lies in
the inclusive range. -/
def filtered_df (ds : List Sample) (sel : List Wtype) (lo hi : ℤ) :
    List Sample :=
  ds.filter (fun s =>
    decide (s.wtype ∈ sel) && (decide (lo ≤ s.quality) && decide (s.quality ≤ hi)))

/-- Mean of a list of values, as pandas Series.mean: NaN (none) when the
series is empty, otherwise sum over count. -/
def meanQ (xs : List ℚ) : Option ℚ :=
  if xs.length = 0 then none else some (xs.sum / (xs.length : ℚ))

/-- Median of a list of values, as pandas Series.median: NaN (none) when
the series is empty, otherwise the middle of the sorted values, averaging
the two middles for an even count. -/
def medianQ (xs : List ℚ) : Option ℚ :=
  let s := List.insertionSort (· ≤ ·) xs
  if s.length = 0 then none
  else if s.length % 2 = 1 then some (s.getD (s.length / 2) 0)
  else some ((s.getD (s.length / 2 - 1) 0 + s.getD (s.length / 2) 0) / 2)

/-- Summary statistics of one numeric column of a dataset: its mean and
median, as used by the four metric widgets (app.py lines 61-64). -/
def summaryStats (ds : List Sample) (c : NumCol) : Option ℚ × Option ℚ :=
  (meanQ (ds.map (fun s => s.col c)), medianQ (ds.map (fun s => s.col c)))

/-- Distinct quality scores of a dataset in ascending order: the group keys
of groupby quality (pandas sorts group keys ascending by default). -/
def groupKeys (ds : List Sample) : List ℤ :=
  List.insertionSort (· ≤ ·) (ds.map Sample.quality).dedup

/-- Embedding of filtered_df.groupby(quality)[c].mean().reset_index()
(app.py line 119): the distinct quality scores ascending, each paired with
the mean of column c over the samples having that quality. -/
def groupedMean (ds : List Sample) (c : NumCol) : List (ℤ × Option ℚ) :=
  (groupKeys ds).map (fun q =>
    (q, meanQ ((ds.filter (fun s => decide (s.quality = q))).map (fun s => s.col c))))

/-- Column c of a dataset as a list of values, in dataset order. -/
def colList (ds : List Sample) (c : NumCol) : List ℚ :=
  ds.map (fun s => s.col c)

/-- Mean used inside the correlation (0 on the empty list, which is only
ever applied under a nonzero-variance guard). -/
def avg (xs : List ℚ) : ℚ := xs.sum / (xs.length : ℚ)

/-- A list with its mean subtracted from every element. -/
def center (xs : List ℚ) : List ℚ := xs.map (fun x => x - avg xs)

/-- Dot product of two lists (zip, multiply, sum). -/
def dot (xs ys : List ℚ) : ℚ := (List.zipWith (· * ·) xs ys).sum

/-- Sum of products of deviations from the mean: the unnormalised
covariance numerator of the Pearson correlation. -/
def devsum (xs ys : List ℚ) : ℚ := dot (center xs) (center ys)

/-- Embedding of filtered_df.drop(columns=[type]).corr() (app.py line 125):
the Pearson correlation of two numeric columns, NaN (none) when either
column has zero variance, otherwise the deviation product sum divided by
the square root of the product of the squared deviation sums. The matrix is
indexed by NumCol only: the non-numeric type column is dropped before
corr() and cannot be asked for. -/
noncomputable def corrMatrix (ds : List Sample) (i j : NumCol) : Option ℝ :=
  if devsum (colList ds i) (colList ds i) = 0 ∨
     devsum (colList ds j) (colList ds j) = 0 then none
  else some ((devsum (colList ds i) (colList ds j) : ℝ) /
    Real.sqrt ((devsum (colList ds i) (colList ds i) : ℝ) *
               (devsum (colList ds j) (colList ds j) : ℝ)))

/-- Concrete data row used by the witness theorems, with the given quality
score. -/
def rowA (q : ℤ) : Row := ⟨7, 1/2, 0, 2, 1/10, 10, 30, 1, 3, 1/2, 10, q⟩

/-- Concrete four-sample dataset used by the witness theorems. -/
def dsEx : List Sample :=
  [tag .Red (rowA 5), tag .Red (rowA 7), tag .White (rowA 5), tag .White (rowA 9)]

/-- Claim C1: a sample is retained by the filter if and only if it occurs in
the dataset, its provenance label is among the selected labels, and its
quality score lies in the inclusive range from lo to hi; nothing outside
these bounds appears and nothing satisfying both conditions is dropped. -/
theorem mem_filtered_df_iff (ds : List Sample) (sel : List Wtype) (lo hi : ℤ)
    (s : Sample) :
    s ∈ filtered_df ds sel lo hi ↔
      s ∈ ds ∧ s.wtype ∈ sel ∧ lo ≤ s.quality ∧ s.quality ≤ hi := by
  simp [filtered_df, List.mem_filter, and_assoc]

/-- Claim C2: if either source file location does not exist, load_data
reports missingFile and never returns a dataset, so zero rows are
processed and no silent empty dataset is produced. -/
theorem load_data_missing_file (re we : Bool) (red white : List Row)
    (h : re = false ∨ we = false) :
    load_data re we red white = Except.error LoadError.missingFile ∧
    ∀ ds : List Sample, load_data re we red white ≠ Except.ok ds := by
  rcases h with h | h <;> subst h <;> simp [load_data]

/-- Witness for claim C2 at a concrete input: the red file is absent. -/
theorem load_data_missing_file_witness :
    load_data false true [] [] = Except.error LoadError.missingFile ∧
    ∀ ds : List Sample, load_data false true [] [] ≠ Except.ok ds :=
  load_data_missing_file false true [] [] (Or.inl rfl)

/-- Claim C3: when both files exist, load_data succeeds; the result has one
sample per input row, every position below the red count holds the
corresponding red row tagged Red, every position at the red count plus j
holds white row j tagged White, and every sample carries one of the two
labels: all red rows precede all white rows, each group in file order. -/
theorem load_data_tags_and_order (red white : List Row) :
    ∃ ds : List Sample, load_data true true red white = Except.ok ds ∧
      ds.length = red.length + white.length ∧
      (∀ i, i < red.length → ds[i]? = (red[i]?).map (tag Wtype.Red)) ∧
      (∀ j, j < white.length →
        ds[red.length + j]? = (white[j]?).map (tag Wtype.White)) ∧
      (∀ s ∈ ds, s.wtype = Wtype.Red ∨ s.wtype = Wtype.White) := by
  refine ⟨red.map (tag .Red) ++ white.map (tag .White), rfl, by simp, ?_, ?_, ?_⟩
  · intro i hi
    rw [List.getElem?_append_left (by simpa using hi), List.getElem?_map]
  · intro j hj
    rw [List.getElem?_append_right (by simp)]
    simp [List.getElem?_map]
  · intro s hs
    rcases List.mem_append.mp hs with h | h
    · rcases List.mem_map.mp h with ⟨r, _, rfl⟩
      exact Or.inl rfl
    · rcases List.mem_map.mp h with ⟨r, _, rfl⟩
      exact Or.inr rfl

/-- Claim C4: filtering with both labels selected and a range that covers
every quality score of the dataset returns the dataset itself, hence in
particular the same multiset of rows. -/
theorem filtered_df_full_range (ds : List Sample) (lo hi : ℤ)
    (h : ∀ s ∈ ds, lo ≤ s.quality ∧ s.quality ≤ hi) :
    filtered_df ds [Wtype.Red, Wtype.White] lo hi = ds := by
  unfold filtered_df
  rw [List.filter_eq_self]
  intro s hs
  rcases h s hs with ⟨h1, h2⟩
  cases hw : s.wtype <;> simp [hw, h1, h2]

/-- Witness for claim C4 at a concrete input: the four-sample dataset with
qualities 5, 7, 5, 9 and the covering range 5 to 9. -/
theorem filtered_df_full_range_witness :
    filtered_df dsEx [Wtype.Red, Wtype.White] 5 9 = dsEx :=
  filtered_df_full_range dsEx 5 9 (by decide)

/-- Claim C5: the filtered dataset is a sublist of the input dataset, so
the retained samples appear in the same relative order as in the input. -/
theorem filtered_df_sublist (ds : List Sample) (sel : List Wtype) (lo hi : ℤ) :
    (filtered_df ds sel lo hi).Sublist ds :=
  List.filter_sublist ds

/-- Claim C6: filtering with an empty label selection yields the empty
dataset, for every dataset and every quality range; the function is total,
so no error is raised. -/
theorem filtered_df_empty_labels (ds : List Sample) (lo hi : ℤ) :
    filtered_df ds [] lo hi = [] := by
  rw [filtered_df, List.filter_eq_nil_iff]
  intro s hs
  simp

/-- Claim C7: the mean and the median of any column of the empty dataset
are the sentinel none, which is distinct from every numeric value some q,
and the computation is total, so nothing is raised to the caller. -/
theorem summaryStats_empty (c : NumCol) :
    summaryStats ([] : List Sample) c = (none, none) ∧
    ∀ q : ℚ, (summaryStats ([] : List Sample) c).1 ≠ some q ∧
             (summaryStats ([] : List Sample) c).2 ≠ some q := by
  constructor
  · simp [summaryStats, meanQ, medianQ, List.insertionSort]
  · intro q
    simp [summaryStats, meanQ, medianQ, List.insertionSort]

/-- Claim C10: the grouped mean of the empty dataset is the empty sequence
of pairs, not an error, for every value column. -/
theorem groupedMean_empty (c : NumCol) : groupedMean ([] : List Sample) c = [] := by
  simp [groupedMean, groupKeys, List.insertionSort]

/-- The group keys are sorted strictly: ascending and without repetition. -/
theorem groupKeys_sorted (ds : List Sample) :
    List.Sorted (· < ·) (groupKeys ds) := by
  have hs : List.Sorted (· ≤ ·) (groupKeys ds) :=
    List.sorted_insertionSort _ _
  have hn : (groupKeys ds).Nodup :=
    (List.perm_insertionSort _ _).nodup_iff.mpr (List.nodup_dedup _)
  exact (hs.and hn).imp (fun h => lt_of_le_of_ne h.1 h.2)

/-- The group keys are exactly the quality scores present in the dataset. -/
theorem groupKeys_mem (ds : List Sample) (q : ℤ) :
    q ∈ groupKeys ds ↔ q ∈ ds.map Sample.quality := by
  unfold groupKeys
  rw [(List.perm_insertionSort _ _).mem_iff, List.mem_dedup]

/-- Claim C8: the group values of the grouped mean are exactly the distinct
quality scores present in the dataset, each appearing once, in ascending
order, and each pair carries the mean of the value column over the samples
of its group. -/
theorem groupedMean_groups (ds : List Sample) (c : NumCol) :
    List.Sorted (· < ·) ((groupedMean ds c).map Prod.fst) ∧
    (∀ q : ℤ, q ∈ (groupedMean ds c).map Prod.fst ↔ q ∈ ds.map Sample.quality) ∧
    ∀ p ∈ groupedMean ds c,
      p.2 = meanQ ((ds.filter (fun s => decide (s.quality = p.1))).map
        (fun s => s.col c)) := by
  have hmap : (groupedMean ds c).map Prod.fst = groupKeys ds := by
    simp only [groupedMean, List.map_map]
    exact List.map_id (groupKeys ds)
  refine ⟨?_, ?_, ?_⟩
  · rw [hmap]; exact groupKeys_sorted ds
  · intro q; rw [hmap]; exact groupKeys_mem ds q
  · intro p hp
    rcases List.mem_map.mp hp with ⟨q, hq, rfl⟩
    rfl

/-- Witness for claim C8 at a concrete input: on the four-sample dataset,
quality 5 is a group value because a sample of quality 5 is present. -/
theorem groupedMean_groups_witness :
    (5 : ℤ) ∈ (groupedMean dsEx NumCol.freeSulfurDioxide).map Prod.fst ↔
      (5 : ℤ) ∈ dsEx.map Sample.quality :=
  (groupedMean_groups dsEx NumCol.freeSulfurDioxide).2.1 5

/-- Dot products are symmetric. -/
theorem dot_comm (xs : List ℚ) : ∀ ys : List ℚ, dot xs ys = dot ys xs := by
  induction xs with
  | nil => intro ys; cases ys <;> rfl
  | cons a xs ih =>
      intro ys
      cases ys with
      | nil => rfl
      | cons b ys =>
          have h := ih ys
          simp only [dot, List.zipWith_cons_cons, List.sum_cons] at h ⊢
          rw [mul_comm, h]

/-- The dot product of a list with itself is nonnegative. -/
theorem dot_self_nonneg (xs : List ℚ) : 0 ≤ dot xs xs := by
  induction xs with
  | nil => simp [dot]
  | cons a xs ih =>
      simp only [dot, List.zipWith_cons_cons, List.sum_cons] at ih ⊢
      exact add_nonneg (mul_self_nonneg a) ih

/-- The dot product of a list with itself vanishes exactly when every
element vanishes. -/
theorem dot_self_eq_zero (zs : List ℚ) : dot zs zs = 0 ↔ ∀ z ∈ zs, z = 0 := by
  induction zs with
  | nil => simp [dot]
  | cons a zs ih =>
      have hz : 0 ≤ dot zs zs := dot_self_nonneg zs
      simp only [dot, List.zipWith_cons_cons, List.sum_cons] at hz ih ⊢
      constructor
      · intro h
        rcases (add_eq_zero_iff_of_nonneg (mul_self_nonneg a) hz).mp h with ⟨h1, h2⟩
        intro z hmem
        rcases List.mem_cons.mp hmem with rfl | hmem
        · exact mul_self_eq_zero.mp h1
        · exact ih.mp h2 z hmem
      · intro h
        have ha : a = 0 := h a (List.mem_cons_self a zs)
        have h2 := ih.mpr (fun z hmem => h z (List.mem_cons_of_mem a hmem))
        rw [ha, h2, mul_zero, zero_add]

/-- The deviation product sum is symmetric in its two columns. -/
theorem devsum_comm (xs ys : List ℚ) : devsum xs ys = devsum ys xs :=
  dot_comm (center xs) (center ys)

/-- The deviation product sum of a column with itself is nonnegative. -/
theorem devsum_self_nonneg (xs : List ℚ) : 0 ≤ devsum xs xs :=
  dot_self_nonneg (center xs)

/-- The squared deviation sum vanishes exactly when the column is constant
at its mean. -/
theorem devsum_self_eq_zero_iff (xs : List ℚ) :
    devsum xs xs = 0 ↔ ∀ x ∈ xs, x = avg xs := by
  unfold devsum center
  rw [dot_self_eq_zero]
  constructor
  · intro h x hx
    exact sub_eq_zero.mp (h (x - avg xs) (List.mem_map.mpr ⟨x, hx, rfl⟩))
  · intro h z hmem
    rcases List.mem_map.mp hmem with ⟨x, hx, rfl⟩
    exact sub_eq_zero.mpr (h x hx)

/-- Claim C9: the correlation matrix, which is defined over the numeric
columns only (NumCol excludes the provenance column dropped before corr),
is symmetric; its diagonal entry at any non-constant column is exactly one;
and any entry involving a column of zero variance is the sentinel none. -/
theorem corrMatrix_props (ds : List Sample) (i j : NumCol) :
    corrMatrix ds i j = corrMatrix ds j i ∧
    ((∃ a ∈ colList ds i, ∃ b ∈ colList ds i, a ≠ b) →
      corrMatrix ds i i = some 1) ∧
    ((devsum (colList ds i) (colList ds i) = 0 ∨
      devsum (colList ds j) (colList ds j) = 0) →
      corrMatrix ds i j = none) := by
  refine ⟨?_, ?_, ?_⟩
  · simp only [corrMatrix]
    by_cases h : devsum (colList ds i) (colList ds i) = 0 ∨
        devsum (colList ds j) (colList ds j) = 0
    · rw [if_pos h, if_pos h.symm]
    · rw [if_neg h, if_neg (fun hc => h hc.symm)]
      rw [devsum_comm (colList ds i) (colList ds j),
        mul_comm ((devsum (colList ds i) (colList ds i) : ℚ) : ℝ)
          ((devsum (colList ds j) (colList ds j) : ℚ) : ℝ)]
  · intro hne
    have hd0 : devsum (colList ds i) (colList ds i) ≠ 0 := by
      intro h0
      rw [devsum_self_eq_zero_iff] at h0
      rcases hne with ⟨a, ha, b, hb, hab⟩
      exact hab ((h0 a ha).trans (h0 b hb).symm)
    have hpos : 0 < devsum (colList ds i) (colList ds i) :=
      (devsum_self_nonneg _).lt_of_ne (Ne.symm hd0)
    have hposR : (0 : ℝ) < ((devsum (colList ds i) (colList ds i) : ℚ) : ℝ) := by
      exact_mod_cast hpos
    simp only [corrMatrix]
    rw [if_neg (by simp [hd0]), Real.sqrt_mul_self hposR.le, div_self hposR.ne']
  · intro h
    simp only [corrMatrix]
    rw [if_pos h]

/-- Witness for claim C9 at a concrete input: the quality column of the
four-sample dataset takes two different values, so its diagonal
correlation entry is one. -/
theorem corrMatrix_props_witness :
    corrMatrix dsEx NumCol.quality NumCol.quality = some 1 :=
  (corrMatrix_props dsEx NumCol.quality NumCol.quality).2.1 (by decide)

end WineApp
